import Mathlib

/-!
Verification of the source/preview synchronization core of the IABCAMEII2H
frontend (`src/frontend/src/App.tsx`, `src/frontend/src/synctex/compileResponse.ts`,
`src/frontend/src/mocks/compileResponse.ts`).

JavaScript strings are modelled as `List Char` (one entry per code unit as the
scripts use them); numbers the code treats as integers are `Nat`, and PDF
coordinate values are `ℚ`.  Fallible operations return `Option`/`Except`.
-/

/-- Line range `{ start, end }` of `App.tsx`; `end` is a Lean keyword and is
rendered as `stop`. -/
structure LineRange where
  start : Nat
  stop : Nat
  deriving DecidableEq, Repr

/-- JavaScript `source.split('\n')` on a list of characters: the list of
newline-separated segments (never empty; the empty string splits to `[[]]`). -/
def splitLines : List Char → List (List Char)
  | [] => [[]]
  | c :: rest =>
    match splitLines rest with
    | [] => [[c]]
    | line :: more =>
      if c = '\n' then [] :: line :: more else (c :: line) :: more

/-- App.tsx `getLineNumber`: `source.slice(0, index).split('\n').length`. -/
def getLineNumber (source : List Char) (index : Nat) : Nat :=
  (splitLines (source.take index)).length

/-- App.tsx `normalizeLineRange`. -/
def normalizeLineRange (startLine endLine : Nat) : LineRange :=
  { start := min startLine endLine, stop := max startLine endLine }

/-- App.tsx `getSelectionLineRange`: converts a character-offset selection into
a line range, returning `none` for an empty selection or one confined to a
single line. -/
def getSelectionLineRange (source : List Char)
    (selectionStart selectionEnd : Nat) : Option LineRange :=
  if selectionStart = selectionEnd then none
  else
    let startIndex := min selectionStart selectionEnd
    let endIndex := max selectionStart selectionEnd
    let startLine := getLineNumber source startIndex
    let endLine := getLineNumber source endIndex
    if startLine = endLine then none
    else some (normalizeLineRange startLine endLine)

/-- Character span `{ start, end }` produced by App.tsx `getLineSpan`. -/
structure CharSpan where
  start : Nat
  stop : Nat
  deriving DecidableEq, Repr

/-- App.tsx `getLineSpan`: the character span covered by a clamped line range;
the loop adds `lines[i].length + 1` for every line from `startLine` through
`endLine`, and when `endLine` is the file's last line the final separator is
backed out with `end = Math.max(start, end - 1)`. -/
def getLineSpan (source : List Char) (range : LineRange) : CharSpan :=
  let lines := splitLines source
  let startLine := min (max range.start 1) lines.length
  let endLine := min (max range.stop 1) lines.length
  let first := ((lines.take (startLine - 1)).map (fun l => l.length + 1)).sum
  let finish := first +
    (((lines.drop (startLine - 1)).take (endLine + 1 - startLine)).map
      (fun l => l.length + 1)).sum
  if endLine = lines.length then { start := first, stop := max first (finish - 1) }
  else { start := first, stop := finish }

/-- Sync status labels of the `SYNC_STATUS` table in App.tsx. -/
inductive SyncStatus where
  | pending
  | ready
  | loading
  | dirty
  deriving DecidableEq, Repr

/-- App.tsx `getSyncStatus`; `compiledSource` is `compileResponse?.source`.
JavaScript truthiness makes both `undefined` and the empty string take the
`pending` branch of `if (!compiledSource)`. -/
def getSyncStatus (source : List Char) (compiledSource : Option (List Char)) :
    SyncStatus :=
  match compiledSource with
  | none => SyncStatus.pending
  | some compiled =>
    if compiled = [] then SyncStatus.pending
    else if source = compiled then SyncStatus.ready
    else SyncStatus.dirty

/-- App.tsx `getStepSize`: `Math.max(1, Math.ceil(length / maxSteps))` on
natural numbers. -/
def getStepSize (length maxSteps : Nat) : Nat :=
  max 1 ((length + maxSteps - 1) / maxSteps)

/-- App.tsx `normalizeLatex`: `value.replace(/\r\n/g, '\n')`. -/
def normalizeLatex : List Char → List Char
  | [] => []
  | '\r' :: '\n' :: rest => '\n' :: normalizeLatex rest
  | c :: rest => c :: normalizeLatex rest

/-- Whitespace test backing the JavaScript `!s.trim()` emptiness checks (true
exactly when every character is whitespace, in particular for the empty
string). -/
def isJsSpace (c : Char) : Bool :=
  c == ' ' || c == '\n' || c == '\t' || c == '\r' || c == '\x0b' || c == '\x0c'

/-- True exactly when `s.trim()` is empty, i.e. `!s.trim()` holds. -/
def isBlank (source : List Char) : Bool :=
  source.all isJsSpace

/-- Preview status labels of the `LOAD_STATUS` table in App.tsx. -/
inductive PreviewStatus where
  | idle
  | ready
  | loading
  | error
  deriving DecidableEq, Repr

/-- `SynctexPage` of `synctex/compileResponse.ts`. -/
structure SynctexPage where
  page : Nat
  width : ℚ
  height : ℚ
  deriving DecidableEq, Repr

/-- `SynctexMapping` of `src/frontend/src/synctex/compileResponse.ts` (the
variant imported by App.tsx; it has no `id`/`label` fields). -/
structure SynctexMapping where
  line : Nat
  page : Nat
  x : ℚ
  y : ℚ
  width : ℚ
  height : ℚ
  deriving DecidableEq, Repr

/-- `SynctexPayload` of `synctex/compileResponse.ts`. -/
structure SynctexPayload where
  version : Nat
  pages : List SynctexPage
  mappings : List SynctexMapping
  deriving DecidableEq, Repr

/-- `CompileResponse` of `synctex/compileResponse.ts`. -/
structure CompileResponse where
  source : List Char
  pdf : String
  synctex : String
  mappings : Option (List SynctexMapping)
  deriving DecidableEq, Repr

/-- The slice of `App`'s React state relevant to the verified claims, plus the
`animationIdRef` generation counter. -/
structure AppState where
  latexSource : List Char
  activeLine : Option Nat
  selectedLineRange : Option LineRange
  compileResponse : Option CompileResponse
  synctexPayload : Option SynctexPayload
  previewStatus : PreviewStatus
  syncStatus : SyncStatus
  compileError : Option String
  chatError : Option String
  isCompiling : Bool
  animationId : Nat
  deriving DecidableEq, Repr

/-- Outcome of the `fetch` in App.tsx `handleCompile`: a transport failure, a
non-ok response (both throw and land in the catch block, carrying the derived
error message), or a parsed `CompileResponse`. -/
inductive CompileFetchOutcome where
  | fetchError (message : String)
  | httpError (message : String)
  | success (data : CompileResponse)
  deriving DecidableEq, Repr

/-- App.tsx `handleCompile`, collapsed to its end-state effect on the modelled
state for one fetch outcome.  The blank-source guard returns before any request
is sent; the transient `isCompiling := true` / `loading` settings made at the
start are overwritten before the handler finishes and only their final values
are modelled. -/
def handleCompile (st : AppState) (outcome : CompileFetchOutcome) : AppState :=
  if isBlank st.latexSource then
    { st with
        compileError := some "Add LaTeX source before compiling.",
        previewStatus := PreviewStatus.error }
  else
    match outcome with
    | CompileFetchOutcome.success data =>
      { st with
          isCompiling := false,
          compileError := none,
          previewStatus := PreviewStatus.loading,
          compileResponse := some data,
          synctexPayload := some
            { version := 1,
              pages := [{ page := 1, width := 612, height := 792 }],
              mappings := data.mappings.getD [] },
          syncStatus := getSyncStatus st.latexSource (some data.source) }
    | CompileFetchOutcome.fetchError msg =>
      { st with
          isCompiling := false,
          compileError := some msg,
          previewStatus := PreviewStatus.error,
          syncStatus := getSyncStatus st.latexSource
            (st.compileResponse.map (fun r => r.source)) }
    | CompileFetchOutcome.httpError msg =>
      { st with
          isCompiling := false,
          compileError := some msg,
          previewStatus := PreviewStatus.error,
          syncStatus := getSyncStatus st.latexSource
            (st.compileResponse.map (fun r => r.source)) }

/-- App.tsx `handleEditorChange` for a textarea event carrying the new value
and the selection offsets (the `persistLatex` side effect touches only the
editor status, which is outside the modelled state). -/
def handleEditorChange (st : AppState) (value : List Char)
    (selectionStart selectionEnd : Nat) : AppState :=
  { st with
      latexSource := value,
      syncStatus := getSyncStatus value (st.compileResponse.map (fun r => r.source)),
      activeLine := some (getLineNumber value selectionStart),
      selectedLineRange := getSelectionLineRange value selectionStart selectionEnd }

/-- App.tsx `isLineHighlighted`, as a function of the selection state. -/
def isLineHighlighted (selectedLineRange : Option LineRange)
    (activeLine : Option Nat) (line : Nat) : Bool :=
  match selectedLineRange with
  | some r => decide (r.start ≤ line) && decide (line ≤ r.stop)
  | none => activeLine == some line

/-- Screen-space rectangle returned by App.tsx `getHighlightStyle`. -/
structure ScreenRect where
  left : ℚ
  top : ℚ
  width : ℚ
  height : ℚ
  deriving DecidableEq, Repr

/-- Six-parameter affine viewport transform `[a, b, c, d, e, f]` from
`pageMetrics.transform`. -/
structure ViewportTransform where
  a : ℚ
  b : ℚ
  c : ℚ
  d : ℚ
  e : ℚ
  f : ℚ
  deriving DecidableEq, Repr

/-- The inner `toViewport` of App.tsx `getHighlightStyle`. -/
def toViewport (t : ViewportTransform) (x y : ℚ) : ℚ × ℚ :=
  (t.a * x + t.c * y + t.e, t.b * x + t.d * y + t.f)

/-- App.tsx `getHighlightStyle` in the branch where page metrics exist. -/
def getHighlightStyle (t : ViewportTransform) (m : SynctexMapping) : ScreenRect :=
  let p1 := toViewport t m.x m.y
  let p2 := toViewport t (m.x + m.width) (m.y + m.height)
  { left := min p1.1 p2.1,
    top := min p1.2 p2.2,
    width := |p2.1 - p1.1|,
    height := |p2.2 - p1.2| }

/-- App.tsx `applyLatexReplacement`, run from entry to commit with no
superseding session (every per-step generation guard passes); the step-level
behaviour is modelled separately by `Session`/`execTrace`.  On an empty buffer
the function returns before assigning a generation id or writing anything. -/
def applyLatexReplacementRun (st : AppState) (range : LineRange)
    (latex : List Char) : AppState :=
  if st.latexSource = [] then st
  else
    let nl := normalizeLatex latex
    let span := getLineSpan st.latexSource range
    let pre := st.latexSource.take span.start
    let suf := st.latexSource.drop span.stop
    let finalSource := pre ++ nl ++ suf
    let lineCount := if nl = [] then 1 else (splitLines nl).length
    let updatedRange : LineRange :=
      { start := range.start, stop := range.start + (lineCount - 1) }
    { st with
        animationId := st.animationId + 1,
        latexSource := finalSource,
        syncStatus := getSyncStatus finalSource
          (st.compileResponse.map (fun r => r.source)),
        selectedLineRange := some updatedRange,
        activeLine := some updatedRange.stop }

/-- The `rangeForRequest` computed at the top of App.tsx `handleChatSubmit`:
`selectedLineRange ?? (activeLine ? {start, end} : null)`; under JavaScript
truthiness an active line of 0 counts as absent. -/
def rangeForRequest (st : AppState) : Option LineRange :=
  match st.selectedLineRange with
  | some r => some r
  | none =>
    match st.activeLine with
    | some l => if l = 0 then none else some { start := l, stop := l }
    | none => none

/-- Tail of App.tsx `handleChatSubmit` after a successful chat response: the
replacement runs only when the response's `latex` field is a string and a
request range existed; otherwise the state is untouched. -/
def handleChatLatexPhase (st : AppState) (latexField : Option (List Char)) :
    AppState :=
  match latexField, rangeForRequest st with
  | some lx, some r => applyLatexReplacementRun st r lx
  | _, _ => st

/-- Body of the delete loop `for (let i = n; i >= 0; i -= step)`: visits `i`
and recurses on `i - step` while `i` stays non-negative.  The first argument is
fuel making the recursion structural; `stepsDown` supplies enough fuel for the
whole loop, so the fuel never runs out on the calls actually made. -/
def stepsDownGo : Nat → Nat → Nat → List Nat
  | 0, _, _ => []
  | fuel + 1, step, i =>
    if step = 0 then []
    else if i < step then [i]
    else i :: stepsDownGo fuel step (i - step)

/-- Index sequence of the delete loop
`for (let i = n; i >= 0; i -= step)`: the visited values of `i`. -/
def stepsDown (step i : Nat) : List Nat :=
  stepsDownGo (i + 1) step i

/-- Body of the type loop `for (let i = 0; i <= limit; i += step)`, with fuel
making the recursion structural; `stepsUp` supplies enough fuel for the whole
loop. -/
def stepsUpGo : Nat → Nat → Nat → Nat → List Nat
  | 0, _, _, _ => []
  | fuel + 1, step, i, limit =>
    if step = 0 then []
    else if i ≤ limit then i :: stepsUpGo fuel step (i + step) limit
    else []

/-- Index sequence of the type loop
`for (let i = 0; i <= limit; i += step)`: the visited values of `i`, starting
from `i`. -/
def stepsUp (step i limit : Nat) : List Nat :=
  stepsUpGo (limit + 1 - i) step i limit

/-- One App.tsx `applyLatexReplacement` invocation (an EditSession): its
generation id and the splice pieces computed from the buffer at start. -/
structure Session where
  id : Nat
  pre : List Char
  removed : List Char
  nl : List Char
  suf : List Char
  deriving DecidableEq, Repr

/-- Shared animation globals: `animationIdRef.current` and the `latexSource`
buffer. -/
structure AnimGlobal where
  cur : Nat
  buf : List Char
  deriving DecidableEq, Repr

/-- Head of App.tsx `applyLatexReplacement`: the early return on an empty
buffer, the span computation, and the generation-id assignment
`animationIdRef.current + 1` recorded as current. -/
def startSession (g : AnimGlobal) (range : LineRange) (latex : List Char) :
    Option (Session × AnimGlobal) :=
  if g.buf = [] then none
  else
    let span := getLineSpan g.buf range
    some ({ id := g.cur + 1,
            pre := g.buf.take span.start,
            removed := (g.buf.drop span.start).take (span.stop - span.start),
            nl := normalizeLatex latex,
            suf := g.buf.drop span.stop },
          { cur := g.cur + 1, buf := g.buf })

/-- `BACKSPACE_ANIMATION_MAX_STEPS` of App.tsx. -/
def BACKSPACE_ANIMATION_MAX_STEPS : Nat := 120

/-- `TYPE_ANIMATION_MAX_STEPS` of App.tsx. -/
def TYPE_ANIMATION_MAX_STEPS : Nat := 160

/-- Buffer values written by the delete phase, in order (one per loop
iteration; the phase is skipped when the removed span is empty). -/
def deleteWrites (s : Session) : List (List Char) :=
  if s.removed = [] then []
  else
    (stepsDown (getStepSize s.removed.length BACKSPACE_ANIMATION_MAX_STEPS)
        s.removed.length).map
      (fun i => s.pre ++ s.removed.take i ++ s.suf)

/-- Buffer values written by the type phase, in order (the step size uses
`normalizedLatex.length || 1`). -/
def typeWrites (s : Session) : List (List Char) :=
  (stepsUp (getStepSize (if s.nl.length = 0 then 1 else s.nl.length)
      TYPE_ANIMATION_MAX_STEPS) 0 s.nl.length).map
    (fun i => s.pre ++ s.nl.take i ++ s.suf)

/-- The committed spliced text: prefix + full replacement + suffix. -/
def sessionTarget (s : Session) : List Char := s.pre ++ s.nl ++ s.suf

/-- All buffer writes a session attempts, in order: delete phase, type phase,
then the final commit write. -/
def sessionWrites (s : Session) : List (List Char) :=
  deleteWrites s ++ typeWrites s ++ [sessionTarget s]

/-- One guarded buffer write: `applyLatexReplacement` checks
`animationIdRef.current !== animationId` before each write (and before the
commit) and aborts silently if superseded. -/
def execWrite (g : AnimGlobal) (id : Nat) (w : List Char) : AnimGlobal :=
  if g.cur = id then { g with buf := w } else g

/-- Execute an interleaved list of guarded writes, each tagged with the
generation id of the session attempting it. -/
def execTrace (g : AnimGlobal) (evs : List (Nat × List Char)) : AnimGlobal :=
  evs.foldl (fun acc e => execWrite acc e.1 e.2) g

/-- Last element of a list of buffer values, with a default. -/
def lastD (l : List (List Char)) (d : List Char) : List Char :=
  match l with
  | [] => d
  | a :: rest => lastD rest a

/-! ### Helper lemmas -/

theorem getStepSize_pos (length maxSteps : Nat) : 0 < getStepSize length maxSteps :=
  lt_of_lt_of_le Nat.zero_lt_one (le_max_left _ _)

theorem stepsDownGo_length (fuel : Nat) : ∀ step i : Nat, step ≠ 0 → i < fuel →
    (stepsDownGo fuel step i).length = i / step + 1 := by
  induction fuel with
  | zero => omega
  | succ fuel ih =>
    intro step i h hfuel
    simp only [stepsDownGo]
    rw [if_neg h]
    by_cases hlt : i < step
    · rw [if_pos hlt]
      simp [Nat.div_eq_of_lt hlt]
    · rw [if_neg hlt]
      have hrec := ih step (i - step) h (by omega)
      simp only [List.length_cons, hrec]
      rw [Nat.div_eq_sub_div (Nat.pos_of_ne_zero h) (le_of_not_lt hlt)]

theorem stepsDown_length (step i : Nat) (h : step ≠ 0) :
    (stepsDown step i).length = i / step + 1 :=
  stepsDownGo_length (i + 1) step i h (by omega)

theorem stepsUpGo_length (fuel : Nat) : ∀ step i limit : Nat, step ≠ 0 →
    limit + 1 - i ≤ fuel → i ≤ limit →
    (stepsUpGo fuel step i limit).length = (limit - i) / step + 1 := by
  induction fuel with
  | zero => omega
  | succ fuel ih =>
    intro step i limit hs hfuel hle
    simp only [stepsUpGo]
    rw [if_neg hs, if_pos hle]
    by_cases h2 : i + step ≤ limit
    · have hrec := ih step (i + step) limit hs (by omega) h2
      have hle2 : step ≤ limit - i := by omega
      have e1 : limit - (i + step) = limit - i - step := by omega
      rw [List.length_cons, hrec, e1,
        Nat.div_eq_sub_div (Nat.pos_of_ne_zero hs) hle2]
    · have hnil : stepsUpGo fuel step (i + step) limit = [] := by
        cases fuel with
        | zero => rfl
        | succ fuel =>
          simp only [stepsUpGo]
          rw [if_neg hs, if_neg h2]
      rw [hnil]
      simp [Nat.div_eq_of_lt (show limit - i < step by omega)]

theorem stepsUp_length (step : Nat) (hs : step ≠ 0) (i limit : Nat)
    (hle : i ≤ limit) :
    (stepsUp step i limit).length = (limit - i) / step + 1 :=
  stepsUpGo_length (limit + 1 - i) step i limit hs (by omega) hle

theorem div_getStepSize_le (n maxSteps : Nat) (h : 1 ≤ maxSteps) :
    n / getStepSize n maxSteps ≤ maxSteps := by
  rcases Nat.eq_zero_or_pos n with hn | hn
  · simp [hn]
  · unfold getStepSize
    set c := (n + maxSteps - 1) / maxSteps with hc
    have hc1 : 1 ≤ c := by
      rw [hc, Nat.one_le_div_iff (by omega)]
      omega
    rw [max_eq_right hc1]
    have hmul : n ≤ maxSteps * c := by
      have hdm := Nat.div_add_mod (n + maxSteps - 1) maxSteps
      have hmod : (n + maxSteps - 1) % maxSteps < maxSteps :=
        Nat.mod_lt _ (by omega)
      rw [← hc] at hdm
      generalize maxSteps * c = P at hdm ⊢
      omega
    calc n / c ≤ maxSteps * c / c := Nat.div_le_div_right hmul
    _ = maxSteps := Nat.mul_div_cancel _ (by omega)

theorem execTrace_cons (g : AnimGlobal) (e : Nat × List Char)
    (evs : List (Nat × List Char)) :
    execTrace g (e :: evs) = execTrace (execWrite g e.1 e.2) evs := rfl

theorem execWrite_cur (g : AnimGlobal) (id : Nat) (w : List Char) :
    (execWrite g id w).cur = g.cur := by
  unfold execWrite
  split <;> rfl

theorem execTrace_cur (evs : List (Nat × List Char)) (g : AnimGlobal) :
    (execTrace g evs).cur = g.cur := by
  induction evs generalizing g with
  | nil => rfl
  | cons e evs ih =>
    rw [execTrace_cons, ih, execWrite_cur]

theorem lastD_concat (l : List (List Char)) (a d : List Char) :
    lastD (l ++ [a]) d = a := by
  induction l generalizing d with
  | nil => rfl
  | cons b l ih => exact ih b

theorem sessionWrites_lastD (s : Session) (d : List Char) :
    lastD (sessionWrites s) d = sessionTarget s := by
  unfold sessionWrites
  exact lastD_concat _ _ _

theorem execTrace_buf (i2 : Nat) (evs : List (Nat × List Char)) (g : AnimGlobal)
    (hg : g.cur = i2) :
    (execTrace g evs).buf
      = lastD ((evs.filter (fun e => e.1 == i2)).map (fun e => e.2)) g.buf := by
  induction evs generalizing g with
  | nil => rfl
  | cons e evs ih =>
    rw [execTrace_cons]
    by_cases he : e.1 = i2
    · have hw : execWrite g e.1 e.2 = { cur := g.cur, buf := e.2 } := by
        unfold execWrite
        rw [if_pos (by rw [hg, he])]
      rw [hw, ih _ (by simpa using hg)]
      simp [List.filter_cons, he, lastD]
    · have hw : execWrite g e.1 e.2 = g := by
        unfold execWrite
        rw [if_neg (by rw [hg]; exact fun hh => he hh.symm)]
      rw [hw, ih g hg]
      simp [List.filter_cons, he]

theorem min_add_abs_sub (a b : ℚ) : min a b + |b - a| = max a b := by
  rcases le_total a b with h | h
  · rw [min_eq_left h, abs_of_nonneg (sub_nonneg.mpr h), max_eq_right h]
    ring
  · rw [min_eq_right h, abs_of_nonpos (sub_nonpos.mpr h), max_eq_left h]
    ring

/-! ### Sample values used by the closed witness theorems -/

/-- A concrete app state carrying the spec's example source `"A\nB\nC\nD"`. -/
def sampleState : AppState :=
  { latexSource := "A\nB\nC\nD".toList,
    activeLine := none,
    selectedLineRange := none,
    compileResponse := none,
    synctexPayload := none,
    previewStatus := PreviewStatus.idle,
    syncStatus := SyncStatus.pending,
    compileError := none,
    chatError := none,
    isCompiling := false,
    animationId := 0 }

/-- A concrete compile response. -/
def sampleResponse : CompileResponse :=
  { source := "A\nB".toList, pdf := "", synctex := "", mappings := none }

/-! ### Claim theorems -/

/-- C1: evaluation of the spec's example scenario on the code's
`applyLatexReplacement`: for source `"A\nB\nC\nD"`, range `{start: 2, end: 3}`
and replacement `"X\nY\nZ"`, the selection range does become `{2, 4}`, but the
final source is `"A\nX\nY\nZD"` and not the claimed `"A\nX\nY\nZ\nD"`:
`getLineSpan` also consumes the separator after line `range.end` (span
`{2, 6}`, covering `"B\nC\n"`), and the committed splice never restores that
separator, so the last replacement line is merged with the following source
line. -/
theorem c1_edit_animator_scenario_eval :
    getLineSpan "A\nB\nC\nD".toList { start := 2, stop := 3 }
      = { start := 2, stop := 6 } ∧
    (applyLatexReplacementRun sampleState { start := 2, stop := 3 }
        "X\nY\nZ".toList).latexSource = "A\nX\nY\nZD".toList ∧
    (applyLatexReplacementRun sampleState { start := 2, stop := 3 }
        "X\nY\nZ".toList).latexSource ≠ "A\nX\nY\nZ\nD".toList ∧
    (applyLatexReplacementRun sampleState { start := 2, stop := 3 }
        "X\nY\nZ".toList).selectedLineRange = some { start := 2, stop := 4 } := by
  decide

/-- C2: when a second edit session starts while an earlier one is
mid-animation, the second session's generation id is strictly greater, every
remaining guarded write of the first session is a no-op, and after any
interleaving in which the second session performs all of its writes (its last
one being the commit) the buffer equals the second session's spliced target
text, prefix + replacement + suffix. -/
theorem c2_superseding_session_wins
    (g0 g1 g2 : AnimGlobal) (r1 r2 : LineRange) (lx1 lx2 : List Char)
    (s1 s2 : Session) (done1 rest1 : List (List Char))
    (inter : List (Nat × List Char))
    (h1 : startSession g0 r1 lx1 = some (s1, g1))
    (hsplit : sessionWrites s1 = done1 ++ rest1)
    (h2 : startSession (execTrace g1 (done1.map (fun w => (s1.id, w)))) r2 lx2
      = some (s2, g2))
    (hsub : (inter.filter (fun e => e.1 == s2.id)).map (fun e => e.2)
      = sessionWrites s2) :
    s1.id < s2.id ∧
    (∀ g : AnimGlobal, g.cur = s2.id → ∀ w, execWrite g s1.id w = g) ∧
    (execTrace g2 inter).buf = sessionTarget s2 := by
  unfold startSession at h1 h2
  by_cases hb1 : g0.buf = []
  · rw [if_pos hb1] at h1
    exact absurd h1 (by simp)
  · rw [if_neg hb1] at h1
    simp only [Option.some.injEq, Prod.mk.injEq] at h1
    obtain ⟨hs1, hg1⟩ := h1
    by_cases hb2 : (execTrace g1 (done1.map (fun w => (s1.id, w)))).buf = []
    · rw [if_pos hb2] at h2
      exact absurd h2 (by simp)
    · rw [if_neg hb2] at h2
      simp only [Option.some.injEq, Prod.mk.injEq] at h2
      obtain ⟨hs2, hg2⟩ := h2
      have hid1 : s1.id = g0.cur + 1 := by rw [← hs1]
      have hcur1 : g1.cur = g0.cur + 1 := by rw [← hg1]
      have hmid : (execTrace g1 (done1.map (fun w => (s1.id, w)))).cur
          = g0.cur + 1 := by rw [execTrace_cur, hcur1]
      have hid2 : s2.id = g0.cur + 2 := by rw [← hs2, hmid]
      have hcur2 : g2.cur = g0.cur + 2 := by rw [← hg2, hmid]
      refine ⟨by omega, ?_, ?_⟩
      · intro g hg w
        have hne : g.cur ≠ s1.id := by
          rw [hg, hid2, hid1]
          omega
        unfold execWrite
        rw [if_neg hne]
      · rw [execTrace_buf s2.id inter g2 (by rw [hcur2, hid2]), hsub,
          sessionWrites_lastD]

/-- C2 witness: a concrete two-session run (source `"A\nB"`, first session
rewrites line 1, second session rewrites line 2 with `"Q"`), in which the
first session's leftover writes are interleaved with the whole second session:
the final buffer is the second session's target `"A\nQ"`. -/
theorem c2_superseding_session_wins_witness :
    (execTrace { cur := 2, buf := "A\nB".toList }
        [(2, "A\nB".toList), (1, "XX".toList), (2, "A\n".toList),
         (2, "A\n".toList), (1, "YY".toList), (2, "A\nQ".toList),
         (2, "A\nQ".toList), (1, "ZZ".toList)]).buf = "A\nQ".toList := by
  have h := c2_superseding_session_wins
    ⟨0, "A\nB".toList⟩ ⟨1, "A\nB".toList⟩ ⟨2, "A\nB".toList⟩
    ⟨1, 1⟩ ⟨2, 2⟩ "P".toList "Q".toList
    ⟨1, [], "A\n".toList, "P".toList, "B".toList⟩
    ⟨2, "A\n".toList, "B".toList, "Q".toList, []⟩
    [] (sessionWrites ⟨1, [], "A\n".toList, "P".toList, "B".toList⟩)
    [(2, "A\nB".toList), (1, "XX".toList), (2, "A\n".toList),
     (2, "A\n".toList), (1, "YY".toList), (2, "A\nQ".toList),
     (2, "A\nQ".toList), (1, "ZZ".toList)]
    (by decide) rfl (by decide) (by decide)
  exact h.2.2.trans (by decide)

/-- C3 (amended): `getSyncStatus` is `pending` with no artifact, `ready` iff
the snapshot is non-empty and the current source equals it, `dirty` iff the
snapshot is non-empty and the source differs, and after a successful compile
the status is computed against `data.source`, the snapshot the server
returned. -/
theorem c3_sync_status (src cs : List Char) (st : AppState)
    (data : CompileResponse) (hbl : isBlank st.latexSource = false) :
    getSyncStatus src none = SyncStatus.pending ∧
    (getSyncStatus src (some cs) = SyncStatus.ready ↔ cs ≠ [] ∧ src = cs) ∧
    (getSyncStatus src (some cs) = SyncStatus.dirty ↔ cs ≠ [] ∧ src ≠ cs) ∧
    (handleCompile st (CompileFetchOutcome.success data)).syncStatus
      = getSyncStatus st.latexSource (some data.source) := by
  refine ⟨rfl, ?_, ?_, ?_⟩
  · simp only [getSyncStatus]
    split_ifs with h1 h2 <;> simp_all
  · simp only [getSyncStatus]
    split_ifs with h1 h2 <;> simp_all
  · simp [handleCompile, hbl]

/-- C3 counterexample: when the last compile response's snapshot is the empty
string and the current source equals it exactly, the status is `pending`
rather than `ready`, because the JavaScript truthiness test
`if (!compiledSource)` also catches an empty snapshot; so string equality with
the snapshot does not imply `Ready` as claimed. -/
theorem c3_sync_status_counterexample :
    ([] : List Char) = ([] : List Char) ∧
    getSyncStatus [] (some []) = SyncStatus.pending ∧
    getSyncStatus [] (some []) ≠ SyncStatus.ready := by
  decide

/-- C3 witness: the amended characterization evaluated at concrete values. -/
theorem c3_sync_status_witness :
    getSyncStatus "x".toList none = SyncStatus.pending ∧
    (getSyncStatus "x".toList (some "y".toList) = SyncStatus.ready
      ↔ "y".toList ≠ [] ∧ "x".toList = "y".toList) ∧
    (getSyncStatus "x".toList (some "y".toList) = SyncStatus.dirty
      ↔ "y".toList ≠ [] ∧ "x".toList ≠ "y".toList) ∧
    (handleCompile sampleState (CompileFetchOutcome.success sampleResponse)).syncStatus
      = getSyncStatus sampleState.latexSource (some sampleResponse.source) :=
  c3_sync_status "x".toList "y".toList sampleState sampleResponse (by decide)

/-- C6: `getHighlightStyle` maps both corners of the mapping rectangle through
the affine transform and returns their axis-aligned bounding rectangle
(`left`/`top` are the coordinate minima and `left + width`/`top + height` the
maxima), so width and height are non-negative for every transform. -/
theorem c6_highlight_style_bounding_rect (t : ViewportTransform)
    (m : SynctexMapping) :
    (getHighlightStyle t m).left
        = min (toViewport t m.x m.y).1
            (toViewport t (m.x + m.width) (m.y + m.height)).1 ∧
    (getHighlightStyle t m).top
        = min (toViewport t m.x m.y).2
            (toViewport t (m.x + m.width) (m.y + m.height)).2 ∧
    (getHighlightStyle t m).left + (getHighlightStyle t m).width
        = max (toViewport t m.x m.y).1
            (toViewport t (m.x + m.width) (m.y + m.height)).1 ∧
    (getHighlightStyle t m).top + (getHighlightStyle t m).height
        = max (toViewport t m.x m.y).2
            (toViewport t (m.x + m.width) (m.y + m.height)).2 ∧
    0 ≤ (getHighlightStyle t m).width ∧
    0 ≤ (getHighlightStyle t m).height := by
  unfold getHighlightStyle
  exact ⟨rfl, rfl, min_add_abs_sub _ _, min_add_abs_sub _ _,
    abs_nonneg _, abs_nonneg _⟩

/-- C7: for a non-empty removed span the delete phase performs at most
`BACKSPACE_ANIMATION_MAX_STEPS + 1 = 121` buffer-update steps, and for every
replacement length the type phase performs at most
`TYPE_ANIMATION_MAX_STEPS + 1 = 161` steps: with step size
`max(1, ceil(length / maxSteps))`, the step counts are bounded by constants
independent of the text lengths. -/
theorem c7_bounded_animation_steps (s : Session) :
    (1 ≤ s.removed.length →
      (deleteWrites s).length ≤ BACKSPACE_ANIMATION_MAX_STEPS + 1) ∧
    (typeWrites s).length ≤ TYPE_ANIMATION_MAX_STEPS + 1 := by
  constructor
  · intro h1
    have hne : s.removed ≠ [] := by
      intro hh
      rw [hh] at h1
      simp at h1
    unfold deleteWrites
    rw [if_neg hne, List.length_map,
      stepsDown_length _ _ (getStepSize_pos _ _).ne']
    have hb := div_getStepSize_le s.removed.length BACKSPACE_ANIMATION_MAX_STEPS
      (by decide)
    omega
  · unfold typeWrites
    rw [List.length_map,
      stepsUp_length _ (getStepSize_pos _ _).ne' _ _ (Nat.zero_le _)]
    simp only [Nat.sub_zero]
    by_cases h0 : s.nl.length = 0
    · simp [h0, Nat.zero_div, TYPE_ANIMATION_MAX_STEPS]
    · rw [if_neg h0]
      have hb := div_getStepSize_le s.nl.length TYPE_ANIMATION_MAX_STEPS
        (by decide)
      omega

/-- C7 witness: the step-count bounds at a concrete session. -/
theorem c7_bounded_animation_steps_witness :
    (deleteWrites ⟨1, [], "AB".toList, "XY".toList, []⟩).length
      ≤ BACKSPACE_ANIMATION_MAX_STEPS + 1 ∧
    (typeWrites ⟨1, [], "AB".toList, "XY".toList, []⟩).length
      ≤ TYPE_ANIMATION_MAX_STEPS + 1 :=
  ⟨(c7_bounded_animation_steps ⟨1, [], "AB".toList, "XY".toList, []⟩).1
      (by decide),
   (c7_bounded_animation_steps ⟨1, [], "AB".toList, "XY".toList, []⟩).2⟩

/-- C8: if the two selection offsets resolve to the same line (in particular
for an empty selection), `getSelectionLineRange` records no range, so after
`handleEditorChange` the selection behaves as `setActiveLine`:
`isLineHighlighted` is true exactly for that one line. -/
theorem c8_single_line_selection (st : AppState) (value : List Char)
    (a b : Nat) (h : getLineNumber value a = getLineNumber value b) :
    (handleEditorChange st value a b).selectedLineRange = none ∧
    ∀ line, isLineHighlighted (handleEditorChange st value a b).selectedLineRange
        (handleEditorChange st value a b).activeLine line = true
      ↔ line = getLineNumber value a := by
  have hnone : getSelectionLineRange value a b = none := by
    rcases le_total a b with hle | hle
    · simp only [getSelectionLineRange, min_eq_left hle, max_eq_right hle]
      by_cases hab : a = b
      · simp [hab]
      · simp [hab, h]
    · simp only [getSelectionLineRange, min_eq_right hle, max_eq_left hle]
      by_cases hab : a = b
      · simp [hab]
      · simp [hab, h]
  constructor
  · simp [handleEditorChange, hnone]
  · intro line
    simp only [handleEditorChange, hnone, isLineHighlighted, beq_iff_eq,
      Option.some.injEq]
    exact eq_comm

/-- C8 witness: a same-line selection (offsets 0 and 1 of `"ab\ncd"`) records
no range and highlights exactly line 1. -/
theorem c8_single_line_selection_witness :
    (handleEditorChange sampleState "ab\ncd".toList 0 1).selectedLineRange
      = none ∧
    (isLineHighlighted
        (handleEditorChange sampleState "ab\ncd".toList 0 1).selectedLineRange
        (handleEditorChange sampleState "ab\ncd".toList 0 1).activeLine 1 = true
      ↔ (1 : Nat) = getLineNumber "ab\ncd".toList 0) :=
  ⟨(c8_single_line_selection sampleState "ab\ncd".toList 0 1 (by decide)).1,
   (c8_single_line_selection sampleState "ab\ncd".toList 0 1 (by decide)).2 1⟩

/-- C9: a failed compile attempt (blank source, so no request is sent, or a
transport/non-ok outcome) leaves the source text, active line, selected line
range, stored compile response, and synctex payload unchanged. -/
theorem c9_failed_compile_preserves_state (st : AppState)
    (outcome : CompileFetchOutcome)
    (h : isBlank st.latexSource = true ∨
      ∀ d, outcome ≠ CompileFetchOutcome.success d) :
    (handleCompile st outcome).latexSource = st.latexSource ∧
    (handleCompile st outcome).activeLine = st.activeLine ∧
    (handleCompile st outcome).selectedLineRange = st.selectedLineRange ∧
    (handleCompile st outcome).compileResponse = st.compileResponse ∧
    (handleCompile st outcome).synctexPayload = st.synctexPayload := by
  unfold handleCompile
  by_cases hb : isBlank st.latexSource = true
  · rw [if_pos hb]
    simp
  · rw [if_neg hb]
    cases outcome with
    | fetchError m => simp
    | httpError m => simp
    | success d =>
      rcases h with h | h
      · exact absurd h hb
      · exact absurd rfl (h d)

/-- C9 witness: a transport failure on a concrete state. -/
theorem c9_failed_compile_preserves_state_witness :
    (handleCompile sampleState (CompileFetchOutcome.fetchError "boom")).latexSource
      = sampleState.latexSource ∧
    (handleCompile sampleState (CompileFetchOutcome.fetchError "boom")).activeLine
      = sampleState.activeLine ∧
    (handleCompile sampleState (CompileFetchOutcome.fetchError "boom")).selectedLineRange
      = sampleState.selectedLineRange ∧
    (handleCompile sampleState (CompileFetchOutcome.fetchError "boom")).compileResponse
      = sampleState.compileResponse ∧
    (handleCompile sampleState (CompileFetchOutcome.fetchError "boom")).synctexPayload
      = sampleState.synctexPayload :=
  c9_failed_compile_preserves_state sampleState
    (CompileFetchOutcome.fetchError "boom")
    (Or.inr (by intro d; simp))

/-- C10: a chat response whose `latex` field is a string causes no buffer
mutation when no line is active and no range is selected (the replacement is
never invoked), and `applyLatexReplacement` on an empty source returns before
assigning a generation id or writing; in both cases the state (including the
chat error) is unchanged. -/
theorem c10_no_range_or_empty_source (st st2 : AppState)
    (lx lx2 : List Char) (r : LineRange)
    (ha : rangeForRequest st = none) (hb : st2.latexSource = []) :
    handleChatLatexPhase st (some lx) = st ∧
    applyLatexReplacementRun st2 r lx2 = st2 ∧
    (applyLatexReplacementRun st2 r lx2).animationId = st2.animationId := by
  have h2 : applyLatexReplacementRun st2 r lx2 = st2 := by
    unfold applyLatexReplacementRun
    rw [if_pos hb]
  refine ⟨?_, h2, by rw [h2]⟩
  unfold handleChatLatexPhase
  rw [ha]

/-- C10 witness: no active line and no range on `sampleState`, and an
empty-source state, at concrete replacement text. -/
theorem c10_no_range_or_empty_source_witness :
    handleChatLatexPhase sampleState (some "Q".toList) = sampleState ∧
    applyLatexReplacementRun { sampleState with latexSource := [] }
        { start := 1, stop := 1 } "Q".toList
      = { sampleState with latexSource := [] } ∧
    (applyLatexReplacementRun { sampleState with latexSource := [] }
        { start := 1, stop := 1 } "Q".toList).animationId
      = ({ sampleState with latexSource := [] } : AppState).animationId :=
  c10_no_range_or_empty_source sampleState
    { sampleState with latexSource := [] } "Q".toList "Q".toList
    { start := 1, stop := 1 } (by decide) rfl

/-! ### Region-map wire codec
(`src/frontend/src/mocks/compileResponse.ts` and
`src/frontend/src/synctex/compileResponse.ts`) -/

/-- JSON values: the objects produced by `JSON.parse` and consumed by
`JSON.stringify` in the wire codec. -/
inductive Json where
  | null
  | bool (b : Bool)
  | num (q : ℚ)
  | str (s : String)
  | arr (items : List Json)
  | obj (fields : List (String × Json))

/-- First field of a JSON object field list with the given key (JavaScript
property lookup on the parsed object). -/
def jGet (fields : List (String × Json)) (key : String) : Option Json :=
  match fields with
  | [] => none
  | (k, v) :: rest => if k = key then some v else jGet rest key

/-- Option-valued traversal of a list, failing when any element does. -/
def optMap (f : α → Option β) : List α → Option (List β)
  | [] => some []
  | a :: rest =>
    match f a, optMap f rest with
    | some b, some bs => some (b :: bs)
    | _, _ => none

/-- Six-bit value of a base64 alphabet character. -/
def base64Val (c : Char) : Option Nat :=
  if 'A' ≤ c ∧ c ≤ 'Z' then some (c.toNat - 65)
  else if 'a' ≤ c ∧ c ≤ 'z' then some (c.toNat - 97 + 26)
  else if '0' ≤ c ∧ c ≤ '9' then some (c.toNat - 48 + 52)
  else if c = '+' then some 62
  else if c = '/' then some 63
  else none

/-- Reassemble bytes from 6-bit groups (a final group of two or three
characters contributes one or two bytes). -/
def base64Chunks : List Nat → Option (List Nat)
  | [] => some []
  | [a, b] => some [a * 4 + b / 16]
  | [a, b, c] => some [a * 4 + b / 16, b % 16 * 16 + c / 4]
  | a :: b :: c :: d :: rest =>
    match base64Chunks rest with
    | some bytes =>
      some ((a * 4 + b / 16) :: (b % 16 * 16 + c / 4) :: (c % 4 * 64 + d) :: bytes)
    | none => none
  | _ => none

/-- ASCII whitespace ignored by the forgiving-base64 decode of `window.atob`. -/
def isB64Space (c : Char) : Bool :=
  c == ' ' || c == '\t' || c == '\n' || c == '\x0c' || c == '\r'

/-- Model of `base64ToBytes` (`window.atob` followed by `charCodeAt` on every
output unit): forgiving-base64 decoding to a byte list, `none` when `atob`
throws on malformed input. -/
def base64ToBytes (s : String) : Option (List Nat) :=
  let cs := s.toList.filter (fun c => !isB64Space c)
  let cs :=
    if cs.length % 4 = 0 then
      match cs.reverse with
      | '=' :: '=' :: rest => rest.reverse
      | '=' :: rest => rest.reverse
      | _ => cs
    else cs
  if cs.length % 4 = 1 then none
  else
    match optMap base64Val cs with
    | some vals => base64Chunks vals
    | none => none

/-- Model of `new TextDecoder().decode` on the byte contents this codec
produces (it never throws; bytes are taken as code points). -/
def textDecodeBytes (bs : List Nat) : String :=
  String.mk (bs.map (fun b => Char.ofNat b))

/-- JSON whitespace skipping. -/
def skipWs : List Char → List Char
  | [] => []
  | c :: rest =>
    if c = ' ' ∨ c = '\n' ∨ c = '\t' ∨ c = '\r' then skipWs rest
    else c :: rest

/-- Scan a JSON string body up to its closing quote. -/
def takeStr : List Char → Option (List Char × List Char)
  | [] => none
  | c :: rest =>
    if c = '"' then some ([], rest)
    else
      match takeStr rest with
      | some (s2, r) => some (c :: s2, r)
      | none => none

/-- Digit run to a natural number. -/
def digitsToNat (l : List Char) : Nat :=
  l.foldl (fun n c => n * 10 + (c.toNat - 48)) 0

/-- Numeric literal value from sign, integer digits and fraction digits. -/
def mkNum (neg : Bool) (ip fp : List Char) : ℚ :=
  let mag : ℚ := (digitsToNat ip : ℚ) + (digitsToNat fp : ℚ) / (10 : ℚ) ^ fp.length
  if neg then -mag else mag

mutual

/-- Model of `JSON.parse` on one value, on the JSON subset the synctex wire
payloads use (null, booleans, plain numbers, escape-free strings, arrays,
objects); the fuel makes the recursion structural and is supplied amply by
`jsonParse`. -/
def parseValue : Nat → List Char → Option (Json × List Char)
  | 0, _ => none
  | fuel + 1, cs =>
    match skipWs cs with
    | [] => none
    | c :: rest =>
      if c = 'n' then
        match rest with
        | 'u' :: 'l' :: 'l' :: r => some (Json.null, r)
        | _ => none
      else if c = 't' then
        match rest with
        | 'r' :: 'u' :: 'e' :: r => some (Json.bool true, r)
        | _ => none
      else if c = 'f' then
        match rest with
        | 'a' :: 'l' :: 's' :: 'e' :: r => some (Json.bool false, r)
        | _ => none
      else if c = '"' then
        match takeStr rest with
        | some (s2, r) => some (Json.str (String.mk s2), r)
        | none => none
      else if c = '[' then
        match skipWs rest with
        | ']' :: r => some (Json.arr [], r)
        | r2 =>
          match parseItems fuel r2 with
          | some (vs, r3) => some (Json.arr vs, r3)
          | none => none
      else if c = '\x7b' then
        match skipWs rest with
        | '\x7d' :: r => some (Json.obj [], r)
        | r2 =>
          match parseFields fuel r2 with
          | some (fs, r3) => some (Json.obj fs, r3)
          | none => none
      else
        match (if c = '-' then (true, rest) else (false, c :: rest)) with
        | (neg, cs2) =>
          match cs2 with
          | d :: _ =>
            if d.isDigit then
              match cs2.span (fun ch => ch.isDigit) with
              | (intPart, r2) =>
                match r2 with
                | '.' :: r3 =>
                  match r3.span (fun ch => ch.isDigit) with
                  | (fracPart, r4) =>
                    if fracPart = [] then none
                    else some (Json.num (mkNum neg intPart fracPart), r4)
                | _ => some (Json.num (mkNum neg intPart []), r2)
            else none
          | [] => none

/-- Comma-separated array elements up to `]`. -/
def parseItems : Nat → List Char → Option (List Json × List Char)
  | 0, _ => none
  | fuel + 1, cs =>
    match parseValue fuel cs with
    | none => none
    | some (v, rest) =>
      match skipWs rest with
      | ',' :: r =>
        match parseItems fuel r with
        | some (vs, r2) => some (v :: vs, r2)
        | none => none
      | ']' :: r => some ([v], r)
      | _ => none

/-- Comma-separated object members up to the closing brace. -/
def parseFields : Nat → List Char → Option (List (String × Json) × List Char)
  | 0, _ => none
  | fuel + 1, cs =>
    match skipWs cs with
    | '"' :: rest =>
      match takeStr rest with
      | none => none
      | some (key, r) =>
        match skipWs r with
        | ':' :: r2 =>
          match parseValue fuel r2 with
          | none => none
          | some (v, r3) =>
            match skipWs r3 with
            | ',' :: r4 =>
              match parseFields fuel r4 with
              | some (fs, r5) => some ((String.mk key, v) :: fs, r5)
              | none => none
            | '\x7d' :: r4 => some ([(String.mk key, v)], r4)
            | _ => none
        | _ => none
    | _ => none

end

/-- Model of `JSON.parse`: parse one value and require only trailing
whitespace; `none` models a thrown `SyntaxError`. -/
def jsonParse (s : String) : Option Json :=
  match parseValue (2 * s.length + 2) s.toList with
  | some (v, rest) => if skipWs rest = [] then some v else none
  | none => none

namespace Mocks

/-- `SynctexPage` of `mocks/compileResponse.ts` (numeric fields are JavaScript
numbers). -/
structure SynctexPage where
  page : ℚ
  width : ℚ
  height : ℚ
  deriving DecidableEq, Repr

/-- `SynctexMapping` of `mocks/compileResponse.ts`: this variant carries an
`id` and an optional `label`. -/
structure SynctexMapping where
  id : String
  line : ℚ
  page : ℚ
  x : ℚ
  y : ℚ
  width : ℚ
  height : ℚ
  label : Option String
  deriving DecidableEq, Repr

/-- `SynctexPayload` of `mocks/compileResponse.ts`: exactly the fields
`version`, `pages`, `mappings`. -/
structure SynctexPayload where
  version : ℚ
  pages : List SynctexPage
  mappings : List SynctexMapping
  deriving DecidableEq, Repr

/-- The JSON object a page literal denotes (property order as constructed). -/
def pageToJson (p : SynctexPage) : Json :=
  Json.obj [("page", Json.num p.page), ("width", Json.num p.width),
    ("height", Json.num p.height)]

/-- The JSON object a mapping literal denotes; `JSON.stringify` omits an
absent optional `label` property. -/
def mappingToJson (m : SynctexMapping) : Json :=
  Json.obj ([("id", Json.str m.id), ("line", Json.num m.line),
    ("page", Json.num m.page), ("x", Json.num m.x), ("y", Json.num m.y),
    ("width", Json.num m.width), ("height", Json.num m.height)] ++
    (match m.label with
     | some l => [("label", Json.str l)]
     | none => []))

/-- The JSON object the payload literal `{version, pages, mappings}`
denotes. -/
def payloadToJson (p : SynctexPayload) : Json :=
  Json.obj [("version", Json.num p.version),
    ("pages", Json.arr (p.pages.map pageToJson)),
    ("mappings", Json.arr (p.mappings.map mappingToJson))]

/-- Read a page back from its JSON object. -/
def pageOfJson : Json → Option SynctexPage
  | Json.obj fs =>
    match jGet fs "page", jGet fs "width", jGet fs "height" with
    | some (Json.num p), some (Json.num w), some (Json.num h) =>
      some { page := p, width := w, height := h }
    | _, _, _ => none
  | _ => none

/-- Read a mapping back from its JSON object. -/
def mappingOfJson : Json → Option SynctexMapping
  | Json.obj fs =>
    match jGet fs "id", jGet fs "line", jGet fs "page", jGet fs "x",
        jGet fs "y", jGet fs "width", jGet fs "height" with
    | some (Json.str i), some (Json.num ln), some (Json.num pg),
        some (Json.num x), some (Json.num y), some (Json.num w),
        some (Json.num h) =>
      some ⟨i, ln, pg, x, y, w, h,
        match jGet fs "label" with
        | some (Json.str l) => some l
        | _ => none⟩
    | _, _, _, _, _, _, _ => none
  | _ => none

/-- Read the three payload fields `version`, `pages`, `mappings` back from a
JSON value, failing when any is missing or ill-typed. -/
def payloadOfJson : Json → Option SynctexPayload
  | Json.obj fs =>
    match jGet fs "version", jGet fs "pages", jGet fs "mappings" with
    | some (Json.num v), some (Json.arr ps), some (Json.arr ms) =>
      match optMap pageOfJson ps, optMap mappingOfJson ms with
      | some pages, some mappings =>
        some { version := v, pages := pages, mappings := mappings }
      | _, _ => none
    | _, _, _ => none
  | _ => none

theorem pageOfJson_pageToJson (p : SynctexPage) :
    pageOfJson (pageToJson p) = some p := rfl

theorem mappingOfJson_mappingToJson (m : SynctexMapping) :
    mappingOfJson (mappingToJson m) = some m := by
  obtain ⟨i, ln, pg, x, y, w, h, lb⟩ := m
  cases lb <;> rfl

theorem optMap_map_eq (f : β → Option α) (g : α → β) (l : List α)
    (h : ∀ x : α, f (g x) = some x) : optMap f (l.map g) = some l := by
  induction l with
  | nil => rfl
  | cons x xs ih => simp [optMap, h x, ih]

theorem payloadOfJson_payloadToJson (p : SynctexPayload) :
    payloadOfJson (payloadToJson p) = some p := by
  obtain ⟨v, pages, mappings⟩ := p
  simp [payloadToJson, payloadOfJson, jGet,
    optMap_map_eq pageOfJson pageToJson pages pageOfJson_pageToJson,
    optMap_map_eq mappingOfJson mappingToJson mappings
      mappingOfJson_mappingToJson]

/-- External runtime and library functions composed by the wire codec of
`mocks/compileResponse.ts` — `JSON.stringify`/`JSON.parse`, `fflate`'s
`strToU8`/`gzipSync`/`gunzipSync`, `window.btoa`/`window.atob` (wrapped by
`bytesToBase64`/`base64ToBytes`), and `TextDecoder` — abstracted as
parameters: the repository only composes them, and the claims constrain their
round-trip behaviour on the values this pipeline feeds them. -/
structure Codec where
  jsonSerialize : Json → String
  strToU8 : String → List Nat
  gzipSync : List Nat → List Nat
  gunzipSync : List Nat → List Nat
  bytesToBase64 : List Nat → String
  base64ToBytes : String → List Nat
  textDecode : List Nat → String
  jsonParse : String → Json

/-- The synctex encoding built in `createMockCompileResponse`:
`bytesToBase64(gzipSync(strToU8(JSON.stringify(payload))))`. -/
def encodeSynctex (c : Codec) (p : SynctexPayload) : String :=
  c.bytesToBase64 (c.gzipSync (c.strToU8 (c.jsonSerialize (payloadToJson p))))

/-- `parseSynctexPayload` of `mocks/compileResponse.ts` in the success regime:
`JSON.parse(new TextDecoder().decode(gunzipSync(base64ToBytes(base64))))`; the
trailing `as SynctexPayload` cast inspects nothing. -/
def parseSynctexPayload (c : Codec) (base64 : String) : Json :=
  c.jsonParse (c.textDecode (c.gunzipSync (c.base64ToBytes base64)))

end Mocks

namespace Synctex

/-- `parseSynctexPayload` of `synctex/compileResponse.ts` (same pipeline in
`mocks/compileResponse.ts`), with its failure behaviour:
`JSON.parse(new TextDecoder().decode(gunzipSync(base64ToBytes(base64))))`,
where a thrown exception at any stage is `none`.  The gzip inflation is an
external library call (`fflate.gunzipSync`) passed as a parameter; base64
decoding, text decoding and JSON parsing are modelled concretely above.  The
`as SynctexPayload` cast inspects nothing, so any successfully parsed JSON
value whatsoever is returned as success. -/
def parseSynctexPayload (gunzipSync : List Nat → Option (List Nat))
    (base64 : String) : Option Json :=
  match base64ToBytes base64 with
  | none => none
  | some bytes =>
    match gunzipSync bytes with
    | none => none
    | some payloadBytes => jsonParse (textDecodeBytes payloadBytes)

end Synctex

/-- C4: decoding the encoding of a payload — base64-encoding the gzip of its
JSON serialization, reversed by `parseSynctexPayload` — returns the payload
unchanged in `version`, `pages` and `mappings`, given that each external
layer (base64, gzip, text encoding, JSON) inverts its own output on the
values this pipeline feeds it. -/
theorem c4_synctex_roundtrip (c : Mocks.Codec) (p : Mocks.SynctexPayload)
    (hb64 : c.base64ToBytes (c.bytesToBase64
        (c.gzipSync (c.strToU8 (c.jsonSerialize (Mocks.payloadToJson p)))))
      = c.gzipSync (c.strToU8 (c.jsonSerialize (Mocks.payloadToJson p))))
    (hgz : c.gunzipSync
        (c.gzipSync (c.strToU8 (c.jsonSerialize (Mocks.payloadToJson p))))
      = c.strToU8 (c.jsonSerialize (Mocks.payloadToJson p)))
    (htxt : c.textDecode (c.strToU8 (c.jsonSerialize (Mocks.payloadToJson p)))
      = c.jsonSerialize (Mocks.payloadToJson p))
    (hjson : c.jsonParse (c.jsonSerialize (Mocks.payloadToJson p))
      = Mocks.payloadToJson p) :
    Mocks.parseSynctexPayload c (Mocks.encodeSynctex c p)
      = Mocks.payloadToJson p ∧
    Mocks.payloadOfJson
        (Mocks.parseSynctexPayload c (Mocks.encodeSynctex c p))
      = some p := by
  have h1 : Mocks.parseSynctexPayload c (Mocks.encodeSynctex c p)
      = Mocks.payloadToJson p := by
    unfold Mocks.parseSynctexPayload Mocks.encodeSynctex
    rw [hb64, hgz, htxt, hjson]
  exact ⟨h1, by rw [h1, Mocks.payloadOfJson_payloadToJson]⟩

/-- Payload used by the codec witness: one page and one labelled mapping. -/
def samplePayload : Mocks.SynctexPayload :=
  { version := 1,
    pages := [⟨1, 612, 792⟩],
    mappings := [⟨"mock-0-3", 3, 1, 72, 720, 100, 25, some "Title"⟩] }

/-- A codec instantiation satisfying the inversion laws at `samplePayload`:
each external layer is a constant or the identity on the single value the
pipeline feeds it. -/
def sampleCodec : Mocks.Codec :=
  { jsonSerialize := fun _ => "s",
    strToU8 := fun _ => [7],
    gzipSync := fun bs => bs,
    gunzipSync := fun bs => bs,
    bytesToBase64 := fun _ => "b",
    base64ToBytes := fun _ => [7],
    textDecode := fun _ => "s",
    jsonParse := fun _ => Mocks.payloadToJson samplePayload }

/-- C4 witness: the round trip evaluated at `samplePayload` with
`sampleCodec`. -/
theorem c4_synctex_roundtrip_witness :
    Mocks.parseSynctexPayload sampleCodec
        (Mocks.encodeSynctex sampleCodec samplePayload)
      = Mocks.payloadToJson samplePayload ∧
    Mocks.payloadOfJson
        (Mocks.parseSynctexPayload sampleCodec
          (Mocks.encodeSynctex sampleCodec samplePayload))
      = some samplePayload :=
  c4_synctex_roundtrip sampleCodec samplePayload rfl rfl rfl rfl

/-- C5 (amended): the synctex decode fails exactly when base64 decoding, gzip
inflation, or JSON parsing fails, and on success it returns whatever JSON
value was parsed — it performs no required-field validation, so success never
depends on `version`, `pages` or `mappings` being present. -/
theorem c5_decode_failure_conditions
    (g : List Nat → Option (List Nat)) (s : String) :
    (Synctex.parseSynctexPayload g s = none ↔
      base64ToBytes s = none ∨
      (∃ bs, base64ToBytes s = some bs ∧ g bs = none) ∨
      (∃ bs pb, base64ToBytes s = some bs ∧ g bs = some pb ∧
        jsonParse (textDecodeBytes pb) = none)) ∧
    (∀ bs pb, base64ToBytes s = some bs → g bs = some pb →
      Synctex.parseSynctexPayload g s = jsonParse (textDecodeBytes pb)) := by
  constructor
  · cases hb : base64ToBytes s with
    | none => simp [Synctex.parseSynctexPayload, hb]
    | some bs =>
      cases hg : g bs with
      | none => simp [Synctex.parseSynctexPayload, hb, hg]
      | some pb => simp [Synctex.parseSynctexPayload, hb, hg]
  · intro bs pb hb hg
    simp [Synctex.parseSynctexPayload, hb, hg]

/-- C5 counterexample: `"e30="` is the base64 of the two bytes `0x7b 0x7d`
(the text of an empty JSON object); with the gzip layer inflating to exactly
that content, the decode succeeds with the empty JSON object even though the
required fields `version`, `pages` and `mappings` are all missing (the member
list is empty, and the payload reader rejects it), so the claimed failure on
missing required fields does not occur. -/
theorem c5_missing_fields_counterexample :
    Synctex.parseSynctexPayload (fun bs => some bs) "e30="
      = some (Json.obj []) ∧
    Mocks.payloadOfJson (Json.obj []) = none ∧
    jGet ([] : List (String × Json)) "version" = none :=
  ⟨rfl, rfl, rfl⟩

/-- C5 witness: the no-validation characterization applied at the
counterexample input. -/
theorem c5_decode_failure_conditions_witness :
    Synctex.parseSynctexPayload (fun bs => some bs) "e30="
      = jsonParse (textDecodeBytes [123, 125]) :=
  (c5_decode_failure_conditions (fun bs => some bs) "e30=").2 [123, 125]
    [123, 125] rfl rfl
